import Mathlib

/-!
Shallow embedding of the transactional identifier / sequence-allocation
layer of the web-tutorial repository (package `db`, file `db.go` of the
tutor4 step, mirrored by `tutor3/db.go`).

The Firestore client is modelled as an explicit store state:
a data collection (documents keyed by id) and the single utility
document `Next$SKU` holding the counter field `next`.  Transactions are
modelled by their Firestore semantics: the body reads from a snapshot,
writes are staged and applied only when the body returns no error; the
body also returns the ordered trace of transactional operations it
performed, so read/write ordering facts can be stated.  Go errors are
modelled by the three shapes the code distinguishes: grpc status errors
(inspected via status.Code), errors wrapping the sentinel ErrNotFound
(inspected via errors.Is), and all other plain errors.
-/

namespace WebTutorial

/-- An item record (tutor4/graph/model/item.go): id, name and sku fields. -/
structure Item where
  id   : String
  name : String
  sku  : Int
deriving Repr, DecidableEq

/-- State of the counter document `Next$SKU` as the code can observe it:
the document may be absent, present without a `next` field (DataAt fails),
present with a non-int64 `next` (the type assertion fails), or present
with an integer `next`. -/
inductive CounterDoc where
  | absent
  | noField
  | nonInt
  | intVal (n : Int)
deriving Repr, DecidableEq

/-- A document of the data collection: either it decodes into an `Item`
(`DataTo` succeeds) or it does not.  An undecodable document may still
expose an integer `sku` field to field queries. -/
inductive StoredDoc where
  | good (i : Item)
  | bad (skuField : Option Int)
deriving Repr, DecidableEq

/-- The store state behind one `Client`: the data collection as an
association list keyed by document id, and the counter document of the
utility collection. -/
structure Store where
  data    : List (String × StoredDoc)
  counter : CounterDoc
deriving Repr, DecidableEq

/-- Document lookup by id in a collection. -/
def lookupDoc : List (String × StoredDoc) → String → Option StoredDoc
  | [], _ => none
  | (k, d) :: rest, id => if k = id then some d else lookupDoc rest id

/-- Replacing the document stored under an id (the effect of Set on an
existing document). -/
def setDoc : List (String × StoredDoc) → String → StoredDoc → List (String × StoredDoc)
  | [], _, _ => []
  | (k, dd) :: rest, id, d =>
    if k = id then (id, d) :: setDoc rest id d else (k, dd) :: setDoc rest id d

/-- Removing the document stored under an id (the effect of Delete). -/
def deleteDoc : List (String × StoredDoc) → String → List (String × StoredDoc)
  | [], _ => []
  | (k, d) :: rest, id =>
    if k = id then deleteDoc rest id else (k, d) :: deleteDoc rest id

/-- grpc status codes the code inspects. -/
inductive Code where
  | notFound
  | alreadyExists
  | unknown
deriving Repr, DecidableEq

/-- A Go error as this layer distinguishes them: a grpc status error, an
error wrapping the sentinel `ErrNotFound` (built by fmt.Errorf with %w),
or any other error. -/
inductive GoErr where
  | statusErr (c : Code)
  | wrapNotFound (ctx : String)
  | otherErr (msg : String)
deriving Repr, DecidableEq

/-- `status.Code(err)`: a status error reports its code, any other
non-nil error reports Unknown. -/
def GoErr.code : GoErr → Code
  | .statusErr c => c
  | _ => .unknown

/-- `errors.Is(err, ErrNotFound)`. -/
def GoErr.wrapsErrNotFound : GoErr → Bool
  | .wrapNotFound _ => true
  | _ => false

/-- The Go constant `startSKU = 1000`, the seed of the counter. -/
def startSKU : Int := 1000

/-- One operation performed through a transaction, in program order. -/
inductive TxOp where
  | readCounter
  | updateCounter (n : Int)
  | createItem (id : String) (i : Item)
  | createCounter (n : Int)
deriving Repr, DecidableEq

/-- Which transactional operations stage a write. -/
def TxOp.isWrite : TxOp → Bool
  | .readCounter => false
  | _ => true

/-- `getNext(seqRef, tx)` (db.go): reads the counter document through the
transaction snapshot; absent document surfaces the NotFound status error
of tx.Get, a missing `next` field surfaces the DataAt error, a non-int64
value yields the fmt.Errorf error; otherwise the integer is returned. -/
def getNext (s : Store) : Except GoErr Int :=
  match s.counter with
  | .absent   => .error (.statusErr .notFound)
  | .noField  => .error (.otherErr "DataAt: no such field next")
  | .nonInt   => .error (.otherErr "cannot read next")
  | .intVal n => .ok n

/-- Result of running `Client.create`: the store after the transaction
(unchanged when it aborted), the caller record as the body left it (the
Go code mutates it through a pointer, committed or not), the error the
transaction returned, and the trace of transactional operations. -/
structure CreateResult where
  store : Store
  item  : Item
  err   : Option GoErr
  trace : List TxOp
deriving Repr, DecidableEq

/-- `Client.create` (db.go): one RunTransaction call.  The body reads the
counter via `getNext`, assigns the value to the record sku, stages an
update of the counter to next+1, then stages a fail-if-exists create of
the record.  Writes are applied only if the body succeeds and the
fail-if-exists precondition holds at commit; an existing document id
makes the transaction fail with the AlreadyExists status. -/
def Client.create (s : Store) (id : String) (item : Item) : CreateResult :=
  match getNext s with
  | .error e => { store := s, item := item, err := some e, trace := [.readCounter] }
  | .ok next =>
    let item1 : Item := { item with sku := next }
    match lookupDoc s.data id with
    | some _ =>
      { store := s, item := item1, err := some (.statusErr .alreadyExists)
        trace := [.readCounter, .updateCounter (next + 1), .createItem id item1] }
    | none =>
      { store := { data := s.data ++ [(id, .good item1)], counter := .intVal (next + 1) }
        item := item1, err := none
        trace := [.readCounter, .updateCounter (next + 1), .createItem id item1] }

example :
    Client.create { data := [], counter := .intVal 1000 } "a" { id := "a", name := "spoon", sku := 0 } =
      { store := { data := [("a", .good { id := "a", name := "spoon", sku := 1000 })]
                   counter := .intVal 1001 }
        item := { id := "a", name := "spoon", sku := 1000 }
        err := none
        trace := [.readCounter, .updateCounter 1001,
                  .createItem "a" { id := "a", name := "spoon", sku := 1000 }] } := by
  decide

/-- `Client.startSKU` (db.go): the initialization transaction run once by
NewClient.  It reads the counter document; if absent it stages a create
of the document with `next = startSKU`; if present with an integer value
it only logs and leaves it untouched; a missing field or a non-int64
value is an error, which aborts the transaction. -/
def Client.startSKU (s : Store) : Store × Option GoErr × List TxOp :=
  match s.counter with
  | .absent =>
    ({ s with counter := .intVal WebTutorial.startSKU }, none,
     [.readCounter, .createCounter WebTutorial.startSKU])
  | .noField  => (s, some (.otherErr "DataAt: no such field next"), [.readCounter])
  | .nonInt   => (s, some (.otherErr "cannot read next"), [.readCounter])
  | .intVal _ => (s, none, [.readCounter])

/-- `NewClient` (db.go), restricted to the store-visible part: runs
`Client.startSKU` and fails construction when it fails. -/
def NewClient (s : Store) : Except GoErr Store :=
  match Client.startSKU s with
  | (s1, none, _) => .ok s1
  | (_, some e, _) => .error e

instance {ε α : Type} [DecidableEq ε] [DecidableEq α] : DecidableEq (Except ε α) := fun x y =>
  match x, y with
  | .ok a, .ok b =>
    if h : a = b then isTrue (by rw [h]) else isFalse (by intro hc; cases hc; exact h rfl)
  | .error a, .error b =>
    if h : a = b then isTrue (by rw [h]) else isFalse (by intro hc; cases hc; exact h rfl)
  | .ok _, .error _ => isFalse (by intro hc; cases hc)
  | .error _, .ok _ => isFalse (by intro hc; cases hc)

/-- Result of `Client.AddItem`: the store after the call, the caller
record as AddItem left it, and the returned (id, error) pair, with
`.ok id` standing for (id, nil) and `.error e` for ("", e). -/
structure AddResult where
  store : Store
  item  : Item
  res   : Except GoErr String
deriving Repr, DecidableEq

/-- `Client.AddItem` (db.go): sets the record id to a fresh uuid, runs
`Client.create`, and on an AlreadyExists status error branches back to
regenerate the id and retry; any other error is returned unchanged.
`gen k` stands for the k-th value of uuid.New().String(), and `fuel`
bounds the unbounded goto loop of the source (`none` = still looping
after `fuel` iterations). -/
def Client.AddItem : Nat → (Nat → String) → Nat → Store → Item → Option AddResult
  | 0, _, _, _, _ => none
  | fuel + 1, gen, k, s, item =>
    let item0 : Item := { item with id := gen k }
    let r := Client.create s item0.id item0
    match r.err with
    | some e =>
      if e.code = .alreadyExists then Client.AddItem fuel gen (k + 1) r.store r.item
      else some { store := r.store, item := r.item, res := .error e }
    | none => some { store := r.store, item := r.item, res := .ok r.item.id }

/-- `Client.GetItem` (db.go): a non-transactional document get; absence
(a NotFound status from Get) is mapped to an error wrapping ErrNotFound;
a document that does not decode yields the decode error. -/
def Client.GetItem (s : Store) (id : String) : Except GoErr Item :=
  match lookupDoc s.data id with
  | none => .error (.wrapNotFound id)
  | some (.good i) => .ok i
  | some (.bad _) => .error (.otherErr "decode")

/-- The documents matched by the query Where("sku", "==", sku), in store
order: decodable items whose sku equals the argument, and undecodable
documents whose stored `sku` field equals it. -/
def skuMatches (s : Store) (sku : Int) : List (String × StoredDoc) :=
  s.data.filter fun p =>
    match p.2 with
    | .good i => i.sku == sku
    | .bad f => f == some sku

/-- `Client.GetItemBySKU` (db.go): runs the sku field query; an empty
result is mapped to an error wrapping ErrNotFound, otherwise the first
matching document is decoded (a decode failure is returned as is). -/
def Client.GetItemBySKU (s : Store) (sku : Int) : Except GoErr Item :=
  match skuMatches s sku with
  | [] => .error (.wrapNotFound (toString sku))
  | d :: _ =>
    match d.2 with
    | .good i => .ok i
    | .bad _ => .error (.otherErr "decode")

/-- `Client.ListItems` (db.go): scans the whole data collection ordered
by document id; each document is decoded; documents that fail to decode
are logged and skipped; the decoded items are returned with a nil
error. -/
def Client.ListItems (s : Store) : Except GoErr (List Item) :=
  .ok ((s.data.mergeSort fun a b => a.1 ≤ b.1).filterMap fun p =>
    match p.2 with
    | .good i => some i
    | .bad _ => none)

/-- `Client.UpdateItem` (db.go): gets the document for the record id to
check it exists (absence maps to an error wrapping ErrNotFound), then
Set overwrites the stored document with the caller record. -/
def Client.UpdateItem (s : Store) (i : Item) : Store × Option GoErr :=
  match lookupDoc s.data i.id with
  | none => (s, some (.wrapNotFound i.id))
  | some _ => ({ s with data := setDoc s.data i.id (.good i) }, none)

/-- `Client.DeleteItem` (db.go): a non-transactional document delete;
Firestore Delete succeeds whether or not the document exists, so no
error is ever produced by this model (I/O failures aside). -/
def Client.DeleteItem (s : Store) (id : String) : Store × Option GoErr :=
  ({ s with data := deleteDoc s.data id }, none)

example :
    Client.AddItem 2 (fun k => if k = 0 then "a" else "b") 0
      { data := [("a", .good { id := "a", name := "x", sku := 1000 })], counter := .intVal 1001 }
      { id := "", name := "y", sku := 0 } =
    some { store := { data := [("a", .good { id := "a", name := "x", sku := 1000 }),
                               ("b", .good { id := "b", name := "y", sku := 1001 })]
                      counter := .intVal 1002 }
           item := { id := "b", name := "y", sku := 1001 }
           res := .ok "b" } := by
  decide

/-! ### Shared lemmas about the embedded operations -/

/-- Full characterization of a committed create transaction. -/
theorem create_ok_spec (s : Store) (id : String) (item : Item)
    (hok : (Client.create s id item).err = none) :
    ∃ n, s.counter = .intVal n ∧ lookupDoc s.data id = none ∧
      Client.create s id item =
        { store := { data := s.data ++ [(id, .good { item with sku := n })]
                     counter := .intVal (n + 1) }
          item := { item with sku := n }
          err := none
          trace := [.readCounter, .updateCounter (n + 1),
                    .createItem id { item with sku := n }] } := by
  cases hc : s.counter with
  | absent => simp [Client.create, getNext, hc] at hok
  | noField => simp [Client.create, getNext, hc] at hok
  | nonInt => simp [Client.create, getNext, hc] at hok
  | intVal n =>
    cases hl : lookupDoc s.data id with
    | some d => simp [Client.create, getNext, hc, hl] at hok
    | none => exact ⟨n, rfl, rfl, by simp [Client.create, getNext, hc, hl]⟩

/-- An aborted create transaction applies none of its staged writes. -/
theorem create_aborted_store (s : Store) (id : String) (item : Item)
    (he : (Client.create s id item).err.isSome) :
    (Client.create s id item).store = s := by
  cases hc : s.counter with
  | absent => simp [Client.create, getNext, hc]
  | noField => simp [Client.create, getNext, hc]
  | nonInt => simp [Client.create, getNext, hc]
  | intVal n =>
    cases hl : lookupDoc s.data id with
    | some d => simp [Client.create, getNext, hc, hl]
    | none => simp [Client.create, getNext, hc, hl] at he

/-- Looking a key up after appending one binding at the end. -/
theorem lookupDoc_append_singleton (l : List (String × StoredDoc)) (k j : String)
    (d : StoredDoc) :
    lookupDoc (l ++ [(k, d)]) j =
      match lookupDoc l j with
      | some x => some x
      | none => if k = j then some d else none := by
  induction l with
  | nil => simp [lookupDoc]
  | cons p rest ih =>
    by_cases h : p.1 = j
    · simp [lookupDoc, h]
    · simp only [List.cons_append, lookupDoc, if_neg h]
      exact ih

/-- Looking another key up after the overwrite performed by Set. -/
theorem lookupDoc_setDoc_other (l : List (String × StoredDoc)) (id j : String)
    (d : StoredDoc) (hj : j ≠ id) :
    lookupDoc (setDoc l id d) j = lookupDoc l j := by
  induction l with
  | nil => simp [setDoc]
  | cons p rest ih =>
    obtain ⟨k, dd⟩ := p
    by_cases h : k = id
    · have hne : id ≠ j := fun hc => hj hc.symm
      subst h
      simp [setDoc, lookupDoc, hne, ih]
    · by_cases h2 : k = j
      · simp [setDoc, lookupDoc, h, h2, hj]
      · simp [setDoc, lookupDoc, h, h2, ih]

/-- The overwrite performed by Set stores the new document under the key. -/
theorem lookupDoc_setDoc_self (l : List (String × StoredDoc)) (id : String)
    (d : StoredDoc) (hp : (lookupDoc l id).isSome) :
    lookupDoc (setDoc l id d) id = some d := by
  induction l with
  | nil => simp [lookupDoc] at hp
  | cons p rest ih =>
    obtain ⟨k, dd⟩ := p
    by_cases h : k = id
    · simp [setDoc, lookupDoc, h]
    · simp only [lookupDoc, if_neg h] at hp
      simp [setDoc, lookupDoc, h, ih hp]

/-- Looking a key up after the delete of an id. -/
theorem lookupDoc_deleteDoc (l : List (String × StoredDoc)) (id j : String) :
    lookupDoc (deleteDoc l id) j = if j = id then none else lookupDoc l j := by
  induction l with
  | nil => simp [lookupDoc, deleteDoc]
  | cons p rest ih =>
    obtain ⟨k, dd⟩ := p
    by_cases h : k = id
    · subst h
      by_cases hj : j = k
      · subst hj
        simpa [deleteDoc] using ih
      · have hkj : ¬ k = j := fun hc => hj hc.symm
        simp [deleteDoc, lookupDoc, ih, hj, hkj]
    · by_cases h2 : k = j
      · subst h2
        have hj : ¬ k = id := h
        simp [deleteDoc, lookupDoc, h, hj]
      · simp [deleteDoc, lookupDoc, h, h2, ih]

/-- Deleting an id twice is the same as deleting it once. -/
theorem deleteDoc_idem (l : List (String × StoredDoc)) (id : String) :
    deleteDoc (deleteDoc l id) id = deleteDoc l id := by
  induction l with
  | nil => simp [deleteDoc]
  | cons p rest ih =>
    obtain ⟨k, dd⟩ := p
    by_cases h : k = id
    · simp [deleteDoc, h, ih]
    · simp [deleteDoc, h, ih]

/-- The stores reachable from the freshly initialized empty store by
committed creates, paired with the sequence numbers assigned so far, in
commit order. -/
inductive CreatesReach : Store → List Int → Prop where
  | init : CreatesReach (Client.startSKU { data := [], counter := .absent }).1 []
  | step {s : Store} {skus : List Int} (id : String) (item : Item)
      (h : CreatesReach s skus) (hok : (Client.create s id item).err = none) :
      CreatesReach (Client.create s id item).store
        (skus ++ [(Client.create s id item).item.sku])

/-! ### Claims -/

/-- C1: a committed create reads the counter value `n` through the
transaction, assigns `n` to the new record's sku, stages an update of
the same counter document to `n + 1` through the same transaction, and
stages the insert of the record with fail-if-exists semantics (the id
was not present), the counter read preceding both writes in the
transaction trace. -/
theorem create_reads_counter_then_writes (s : Store) (id : String) (item : Item)
    (hok : (Client.create s id item).err = none) :
    ∃ n, s.counter = .intVal n ∧
      (Client.create s id item).item.sku = n ∧
      lookupDoc s.data id = none ∧
      (Client.create s id item).trace =
        [.readCounter, .updateCounter (n + 1),
         .createItem id (Client.create s id item).item] ∧
      (Client.create s id item).store.counter = .intVal (n + 1) ∧
      (Client.create s id item).store.data =
        s.data ++ [(id, .good (Client.create s id item).item)] := by
  obtain ⟨n, hc, hl, he⟩ := create_ok_spec s id item hok
  exact ⟨n, hc, by rw [he], hl, by rw [he], by rw [he], by rw [he]⟩

/-- Witness for C1: the first create on a freshly initialized store. -/
theorem create_reads_counter_then_writes_witness :
    ∃ n, (Store.mk [] (.intVal 1000)).counter = .intVal n ∧
      (Client.create (Store.mk [] (.intVal 1000)) "a" (Item.mk "a" "spoon" 0)).item.sku = n ∧
      lookupDoc (Store.mk [] (.intVal 1000)).data "a" = none ∧
      (Client.create (Store.mk [] (.intVal 1000)) "a" (Item.mk "a" "spoon" 0)).trace =
        [.readCounter, .updateCounter (n + 1),
         .createItem "a" (Client.create (Store.mk [] (.intVal 1000)) "a" (Item.mk "a" "spoon" 0)).item] ∧
      (Client.create (Store.mk [] (.intVal 1000)) "a" (Item.mk "a" "spoon" 0)).store.counter = .intVal (n + 1) ∧
      (Client.create (Store.mk [] (.intVal 1000)) "a" (Item.mk "a" "spoon" 0)).store.data =
        (Store.mk [] (.intVal 1000)).data ++
          [("a", .good (Client.create (Store.mk [] (.intVal 1000)) "a" (Item.mk "a" "spoon" 0)).item)] :=
  create_reads_counter_then_writes (Store.mk [] (.intVal 1000)) "a" (Item.mk "a" "spoon" 0)
    (by decide)

/-- C2: after any sequence of committed creates from an initialized
store the counter holds `intVal c` with `c = 1000` when nothing was
created, every assigned sequence below `c`, and `c - 1` among the
assigned sequences when any exist (so `c = 1 + max assigned`); every
committed create advances the counter by exactly one; an aborted create
transaction leaves the whole store, hence the counter, unchanged. -/
theorem counter_tracks_max_assigned :
    (∀ s skus, CreatesReach s skus →
      ∃ c, s.counter = .intVal c ∧
        (skus = [] → c = 1000) ∧
        (∀ x ∈ skus, x < c) ∧
        (skus ≠ [] → c - 1 ∈ skus)) ∧
    (∀ s id item n, s.counter = .intVal n →
      (Client.create s id item).err = none →
      (Client.create s id item).store.counter = .intVal (n + 1)) ∧
    (∀ s id item, (Client.create s id item).err.isSome →
      (Client.create s id item).store = s) := by
  refine ⟨?_, ?_, ?_⟩
  · intro s skus h
    induction h with
    | init => exact ⟨1000, rfl, fun _ => rfl, by simp, by simp⟩
    | step id item h hok ih =>
      obtain ⟨c, hc, _, hbound, _⟩ := ih
      obtain ⟨n, hcn, hl, he⟩ := create_ok_spec _ id item hok
      rw [hc] at hcn
      injection hcn with hnc
      subst hnc
      refine ⟨c + 1, by rw [he], by simp, ?_, ?_⟩
      · intro x hx
        rw [he] at hx
        simp only [List.mem_append, List.mem_singleton] at hx
        rcases hx with hx | hx
        · exact lt_trans (hbound x hx) (by omega)
        · omega
      · intro _
        rw [he]
        simp
  · intro s id item n hn hok
    obtain ⟨m, hcm, _, he⟩ := create_ok_spec s id item hok
    rw [hn] at hcm
    injection hcm with hnm
    subst hnm
    rw [he]
  · exact create_aborted_store

/-- Witness for C2: the initialized store with no creates, one concrete
committed create, and one concrete aborted create. -/
theorem counter_tracks_max_assigned_witness :
    (∃ c, (Client.startSKU (Store.mk [] .absent)).1.counter = .intVal c ∧
      (([] : List Int) = [] → c = 1000) ∧
      (∀ x ∈ ([] : List Int), x < c) ∧
      (([] : List Int) ≠ [] → c - 1 ∈ ([] : List Int))) ∧
    (Client.create (Store.mk [] (.intVal 1000)) "a" (Item.mk "a" "spoon" 0)).store.counter =
      .intVal (1000 + 1) ∧
    (Client.create (Store.mk [] .nonInt) "a" (Item.mk "a" "spoon" 0)).store =
      Store.mk [] .nonInt :=
  ⟨counter_tracks_max_assigned.1 _ _ CreatesReach.init,
   counter_tracks_max_assigned.2.1 (Store.mk [] (.intVal 1000)) "a" (Item.mk "a" "spoon" 0)
     1000 rfl (by decide),
   counter_tracks_max_assigned.2.2 (Store.mk [] .nonInt) "a" (Item.mk "a" "spoon" 0)
     (by decide)⟩

/-- Counterexample to C3: the create transaction body does mutate
caller-visible state before commit.  On a collision the transaction
aborts (AlreadyExists, store unchanged) yet the caller record's sku has
been overwritten with the counter value read; and when AddItem returns
an error the caller record's id has been overwritten with the freshly
generated identifier. -/
theorem create_mutates_record_before_commit :
    (Client.create (Store.mk [("a", .good (Item.mk "a" "x" 1000))] (.intVal 1001)) "a"
        (Item.mk "a" "y" 0)).err = some (.statusErr .alreadyExists) ∧
    (Client.create (Store.mk [("a", .good (Item.mk "a" "x" 1000))] (.intVal 1001)) "a"
        (Item.mk "a" "y" 0)).store =
      Store.mk [("a", .good (Item.mk "a" "x" 1000))] (.intVal 1001) ∧
    (Client.create (Store.mk [("a", .good (Item.mk "a" "x" 1000))] (.intVal 1001)) "a"
        (Item.mk "a" "y" 0)).item.sku = 1001 ∧
    (1001 : Int) ≠ 0 ∧
    Client.AddItem 1 (fun _ => "b") 0 (Store.mk [] .nonInt) (Item.mk "" "y" 0) =
      some { store := Store.mk [] .nonInt
             item := Item.mk "b" "y" 0
             res := .error (.otherErr "cannot read next") } ∧
    ("b" : String) ≠ "" := by
  refine ⟨by decide, by decide, by decide, by decide, by decide, by decide⟩

/-- C3 amended: an aborted create transaction applies none of its staged
writes — the store is unchanged and, the body being a pure function of
the snapshot, re-executing the transaction from the resulting store
returns the same result — and whenever AddItem returns an error the
store is unchanged; however, the caller-supplied record itself may have
its id and sku fields overwritten by the body before commit. -/
theorem create_aborted_no_store_effect :
    (∀ s id item, (Client.create s id item).err.isSome →
      (Client.create s id item).store = s ∧
      Client.create (Client.create s id item).store id item = Client.create s id item) ∧
    (∀ fuel gen k s item r, Client.AddItem fuel gen k s item = some r →
      (∃ e, r.res = .error e) → r.store = s) := by
  constructor
  · intro s id item he
    have hs := create_aborted_store s id item he
    exact ⟨hs, by rw [hs]⟩
  · intro fuel
    induction fuel with
    | zero =>
      intro gen k s item r h
      simp [Client.AddItem] at h
    | succ n ih =>
      intro gen k s item r h herr
      simp only [Client.AddItem] at h
      split at h
      next e heq =>
        split at h
        next hcode =>
          have hs := create_aborted_store s (gen k) { item with id := gen k }
            (by rw [heq]; rfl)
          rw [hs] at h
          exact ih gen (k + 1) s _ r h herr
        next hcode =>
          injection h with h1
          subst h1
          exact create_aborted_store s (gen k) { item with id := gen k } (by rw [heq]; rfl)
      next heq =>
        injection h with h1
        subst h1
        obtain ⟨e, hres⟩ := herr
        simp at hres

/-- Witness for the amended C3: a concrete aborted create (collision)
and a concrete AddItem error (malformed counter). -/
theorem create_aborted_no_store_effect_witness :
    ((Client.create (Store.mk [("a", .good (Item.mk "a" "x" 1000))] (.intVal 1001)) "a"
        (Item.mk "a" "y" 0)).store =
      Store.mk [("a", .good (Item.mk "a" "x" 1000))] (.intVal 1001) ∧
     Client.create
        (Client.create (Store.mk [("a", .good (Item.mk "a" "x" 1000))] (.intVal 1001)) "a"
          (Item.mk "a" "y" 0)).store "a" (Item.mk "a" "y" 0) =
       Client.create (Store.mk [("a", .good (Item.mk "a" "x" 1000))] (.intVal 1001)) "a"
         (Item.mk "a" "y" 0)) ∧
    { store := Store.mk [] .nonInt
      item := Item.mk "b" "y" 0
      res := .error (.otherErr "cannot read next") : AddResult }.store = Store.mk [] .nonInt :=
  ⟨create_aborted_no_store_effect.1
      (Store.mk [("a", .good (Item.mk "a" "x" 1000))] (.intVal 1001)) "a"
      (Item.mk "a" "y" 0) (by decide),
   create_aborted_no_store_effect.2 1 (fun _ => "b") 0 (Store.mk [] .nonInt)
      (Item.mk "" "y" 0) _ (by decide) ⟨.otherErr "cannot read next", rfl⟩⟩

/-- C4: AddItem retries the whole generate-and-transact cycle with the
next generated identifier exactly when the create transaction failed
with the AlreadyExists status; any other error is returned to the
caller unchanged without a retry; and an error whose status code is
AlreadyExists is never returned by AddItem. -/
theorem addItem_collision_retry :
    (∀ fuel gen k s item e,
      (Client.create s (gen k) { item with id := gen k }).err = some e →
      e.code = .alreadyExists →
      Client.AddItem (fuel + 1) gen k s item =
        Client.AddItem fuel gen (k + 1)
          (Client.create s (gen k) { item with id := gen k }).store
          (Client.create s (gen k) { item with id := gen k }).item) ∧
    (∀ fuel gen k s item e,
      (Client.create s (gen k) { item with id := gen k }).err = some e →
      e.code ≠ .alreadyExists →
      Client.AddItem (fuel + 1) gen k s item =
        some { store := (Client.create s (gen k) { item with id := gen k }).store
               item := (Client.create s (gen k) { item with id := gen k }).item
               res := .error e }) ∧
    (∀ fuel gen k s item r e,
      Client.AddItem fuel gen k s item = some r → r.res = .error e →
      e.code ≠ .alreadyExists) := by
  refine ⟨?_, ?_, ?_⟩
  · intro fuel gen k s item e he hcode
    simp [Client.AddItem, he, hcode]
  · intro fuel gen k s item e he hcode
    simp [Client.AddItem, he, hcode]
  · intro fuel
    induction fuel with
    | zero =>
      intro gen k s item r e h
      simp [Client.AddItem] at h
    | succ n ih =>
      intro gen k s item r e h hres
      simp only [Client.AddItem] at h
      split at h
      next e1 heq =>
        split at h
        next hcode => exact ih gen (k + 1) _ _ r e h hres
        next hcode =>
          injection h with h1
          subst h1
          simp only at hres
          injection hres with h2
          subst h2
          exact hcode
      next heq =>
        injection h with h1
        subst h1
        simp at hres

/-- Witness for C4: a concrete collision that is retried, a concrete
non-collision error returned unchanged, and a concrete error return that
is not AlreadyExists. -/
theorem addItem_collision_retry_witness :
    Client.AddItem 2 (fun k => if k = 0 then "a" else "b") 0
        (Store.mk [("a", .good (Item.mk "a" "x" 1000))] (.intVal 1001)) (Item.mk "" "y" 0) =
      Client.AddItem 1 (fun k => if k = 0 then "a" else "b") 1
        (Client.create (Store.mk [("a", .good (Item.mk "a" "x" 1000))] (.intVal 1001))
          ((fun k => if k = 0 then "a" else "b") 0)
          { Item.mk "" "y" 0 with id := (fun k => if k = 0 then "a" else "b") 0 }).store
        (Client.create (Store.mk [("a", .good (Item.mk "a" "x" 1000))] (.intVal 1001))
          ((fun k => if k = 0 then "a" else "b") 0)
          { Item.mk "" "y" 0 with id := (fun k => if k = 0 then "a" else "b") 0 }).item ∧
    Client.AddItem 1 (fun _ => "b") 0 (Store.mk [] .nonInt) (Item.mk "" "y" 0) =
      some { store := (Client.create (Store.mk [] .nonInt) ((fun _ => "b") 0)
                        { Item.mk "" "y" 0 with id := (fun _ => "b") 0 }).store
             item := (Client.create (Store.mk [] .nonInt) ((fun _ => "b") 0)
                        { Item.mk "" "y" 0 with id := (fun _ => "b") 0 }).item
             res := .error (.otherErr "cannot read next") } ∧
    ((.otherErr "cannot read next" : GoErr).code ≠ Code.alreadyExists) :=
  ⟨addItem_collision_retry.1 1 (fun k => if k = 0 then "a" else "b") 0
      (Store.mk [("a", .good (Item.mk "a" "x" 1000))] (.intVal 1001)) (Item.mk "" "y" 0)
      (.statusErr .alreadyExists) (by decide) (by decide),
   addItem_collision_retry.2.1 0 (fun _ => "b") 0 (Store.mk [] .nonInt) (Item.mk "" "y" 0)
      (.otherErr "cannot read next") (by decide) (by decide),
   addItem_collision_retry.2.2 1 (fun _ => "b") 0 (Store.mk [] .nonInt) (Item.mk "" "y" 0)
      { store := Store.mk [] .nonInt
        item := Item.mk "b" "y" 0
        res := .error (.otherErr "cannot read next") }
      (.otherErr "cannot read next") (by decide) rfl⟩

/-- Counterexample to C5: UpdateItem overwrites the stored record with
the caller-supplied record verbatim, sku included — the stored sequence
does not survive an update with a different caller-supplied sequence. -/
theorem updateItem_overwrites_sku :
    Client.UpdateItem (Store.mk [("a", .good (Item.mk "a" "x" 1000))] (.intVal 1001))
        (Item.mk "a" "x" 7) =
      (Store.mk [("a", .good (Item.mk "a" "x" 7))] (.intVal 1001), none) ∧
    (7 : Int) ≠ 1000 := by
  refine ⟨by decide, by decide⟩

/-- C5 amended: UpdateItem succeeds exactly on an existing id, and on
success it overwrites the stored document with the caller-supplied
record verbatim — the stored sequence after the update equals the
caller-supplied sequence, so it is preserved only when the caller
resubmits the fetched record's sequence unchanged; documents under
other ids are untouched. -/
theorem updateItem_set_semantics :
    (∀ s i, (Client.UpdateItem s i).2 = none →
      (lookupDoc s.data i.id).isSome ∧
      lookupDoc (Client.UpdateItem s i).1.data i.id = some (.good i)) ∧
    (∀ s i, lookupDoc s.data i.id = none →
      Client.UpdateItem s i = (s, some (.wrapNotFound i.id))) ∧
    (∀ s i j, j ≠ i.id →
      lookupDoc (Client.UpdateItem s i).1.data j = lookupDoc s.data j) := by
  refine ⟨?_, ?_, ?_⟩
  · intro s i hok
    cases hl : lookupDoc s.data i.id with
    | none => simp [Client.UpdateItem, hl] at hok
    | some d =>
      refine ⟨by simp [hl], ?_⟩
      simp only [Client.UpdateItem, hl]
      exact lookupDoc_setDoc_self _ _ _ (by simp [hl])
  · intro s i hl
    simp [Client.UpdateItem, hl]
  · intro s i j hj
    cases hl : lookupDoc s.data i.id with
    | none => simp [Client.UpdateItem, hl]
    | some d =>
      simp only [Client.UpdateItem, hl]
      exact lookupDoc_setDoc_other _ _ _ _ hj

/-- Witness for the amended C5: a concrete successful update, a concrete
absent-id failure, and a concrete untouched other id. -/
theorem updateItem_set_semantics_witness :
    ((lookupDoc (Store.mk [("a", .good (Item.mk "a" "x" 1000))] (.intVal 1001)).data
        (Item.mk "a" "x" 7).id).isSome ∧
      lookupDoc (Client.UpdateItem (Store.mk [("a", .good (Item.mk "a" "x" 1000))] (.intVal 1001))
          (Item.mk "a" "x" 7)).1.data (Item.mk "a" "x" 7).id =
        some (.good (Item.mk "a" "x" 7))) ∧
    Client.UpdateItem (Store.mk [] (.intVal 1000)) (Item.mk "z" "x" 7) =
      (Store.mk [] (.intVal 1000), some (.wrapNotFound (Item.mk "z" "x" 7).id)) ∧
    lookupDoc (Client.UpdateItem (Store.mk [("a", .good (Item.mk "a" "x" 1000))] (.intVal 1001))
        (Item.mk "a" "x" 7)).1.data "q" =
      lookupDoc (Store.mk [("a", .good (Item.mk "a" "x" 1000))] (.intVal 1001)).data "q" :=
  ⟨updateItem_set_semantics.1 (Store.mk [("a", .good (Item.mk "a" "x" 1000))] (.intVal 1001))
      (Item.mk "a" "x" 7) (by decide),
   updateItem_set_semantics.2.1 (Store.mk [] (.intVal 1000)) (Item.mk "z" "x" 7) (by decide),
   updateItem_set_semantics.2.2 (Store.mk [("a", .good (Item.mk "a" "x" 1000))] (.intVal 1001))
      (Item.mk "a" "x" 7) "q" (by decide)⟩

/-- C6: startSKU run on an absent counter document creates it with
next = 1000 (and construction succeeds); on a counter document holding
an integer it leaves the store untouched and stages no write; on a
counter document whose value is not a recognizable integer (wrong type
or missing field) it returns an error and NewClient fails with that
error. -/
theorem startSKU_initializes_counter :
    (∀ s, s.counter = .absent →
      Client.startSKU s = ({ s with counter := .intVal 1000 }, none,
        [.readCounter, .createCounter 1000]) ∧
      NewClient s = .ok { s with counter := .intVal 1000 }) ∧
    (∀ s n, s.counter = .intVal n →
      Client.startSKU s = (s, none, [.readCounter]) ∧
      (Client.startSKU s).2.2.filter TxOp.isWrite = [] ∧
      NewClient s = .ok s) ∧
    (∀ s, s.counter = .nonInt ∨ s.counter = .noField →
      ∃ e, Client.startSKU s = (s, some e, [.readCounter]) ∧ NewClient s = .error e) := by
  refine ⟨?_, ?_, ?_⟩
  · intro s hc
    constructor
    · simp [Client.startSKU, hc, startSKU]
    · simp [NewClient, Client.startSKU, hc, startSKU]
  · intro s n hc
    refine ⟨by simp [Client.startSKU, hc], ?_, by simp [NewClient, Client.startSKU, hc]⟩
    simp [Client.startSKU, hc, TxOp.isWrite]
  · intro s hc
    rcases hc with hc | hc
    · exact ⟨.otherErr "cannot read next",
        by simp [Client.startSKU, hc], by simp [NewClient, Client.startSKU, hc]⟩
    · exact ⟨.otherErr "DataAt: no such field next",
        by simp [Client.startSKU, hc], by simp [NewClient, Client.startSKU, hc]⟩

/-- Witness for C6 at concrete stores in each of the three shapes. -/
theorem startSKU_initializes_counter_witness :
    (Client.startSKU (Store.mk [] .absent) =
      ({ Store.mk [] .absent with counter := .intVal 1000 }, none,
        [.readCounter, .createCounter 1000]) ∧
     NewClient (Store.mk [] .absent) = .ok { Store.mk [] .absent with counter := .intVal 1000 }) ∧
    (Client.startSKU (Store.mk [] (.intVal 1234)) = (Store.mk [] (.intVal 1234), none, [.readCounter]) ∧
     (Client.startSKU (Store.mk [] (.intVal 1234))).2.2.filter TxOp.isWrite = [] ∧
     NewClient (Store.mk [] (.intVal 1234)) = .ok (Store.mk [] (.intVal 1234))) ∧
    (∃ e, Client.startSKU (Store.mk [] .nonInt) = (Store.mk [] .nonInt, some e, [.readCounter]) ∧
      NewClient (Store.mk [] .nonInt) = .error e) :=
  ⟨startSKU_initializes_counter.1 (Store.mk [] .absent) rfl,
   startSKU_initializes_counter.2.1 (Store.mk [] (.intVal 1234)) 1234 rfl,
   startSKU_initializes_counter.2.2 (Store.mk [] .nonInt) (Or.inl rfl)⟩

/-- C7: fetching an id that is not in the store returns an error
wrapping ErrNotFound, and querying a sequence value with zero matching
documents returns an error wrapping ErrNotFound. -/
theorem get_not_found_contract :
    (∀ s id, lookupDoc s.data id = none →
      ∃ e, Client.GetItem s id = .error e ∧ e.wrapsErrNotFound = true) ∧
    (∀ s sku, skuMatches s sku = [] →
      ∃ e, Client.GetItemBySKU s sku = .error e ∧ e.wrapsErrNotFound = true) := by
  constructor
  · intro s id hl
    exact ⟨.wrapNotFound id, by simp [Client.GetItem, hl], rfl⟩
  · intro s sku hm
    exact ⟨.wrapNotFound (toString sku), by simp [Client.GetItemBySKU, hm], rfl⟩

/-- Witness for C7: a nonexistent id and an unused sequence value on a
concrete store. -/
theorem get_not_found_contract_witness :
    (∃ e, Client.GetItem (Store.mk [("a", .good (Item.mk "a" "x" 1000))] (.intVal 1001))
        "nonexistent" = .error e ∧ e.wrapsErrNotFound = true) ∧
    (∃ e, Client.GetItemBySKU (Store.mk [("a", .good (Item.mk "a" "x" 1000))] (.intVal 1001))
        999999 = .error e ∧ e.wrapsErrNotFound = true) :=
  ⟨get_not_found_contract.1 (Store.mk [("a", .good (Item.mk "a" "x" 1000))] (.intVal 1001))
      "nonexistent" (by decide),
   get_not_found_contract.2 (Store.mk [("a", .good (Item.mk "a" "x" 1000))] (.intVal 1001))
      999999 (by decide)⟩

/-- C8: DeleteItem never returns an error — deleting an absent id
succeeds silently — and deleting the same id twice succeeds both times
and leaves the store exactly as a single delete does. -/
theorem deleteItem_idempotent :
    ∀ s id,
      (Client.DeleteItem s id).2 = none ∧
      (Client.DeleteItem (Client.DeleteItem s id).1 id).2 = none ∧
      Client.DeleteItem (Client.DeleteItem s id).1 id = Client.DeleteItem s id := by
  intro s id
  refine ⟨rfl, rfl, ?_⟩
  simp [Client.DeleteItem, deleteDoc_idem]

/-- The stores reachable through this layer: initialization followed by
any sequence of create, update and delete operations. -/
inductive Reach : Store → Prop where
  | init : Reach (Client.startSKU { data := [], counter := .absent }).1
  | createStep {s : Store} (id : String) (item : Item) (h : Reach s) :
      Reach (Client.create s id item).store
  | updateStep {s : Store} (i : Item) (h : Reach s) :
      Reach (Client.UpdateItem s i).1
  | deleteStep {s : Store} (id : String) (h : Reach s) :
      Reach (Client.DeleteItem s id).1

/-- The stores reachable through this layer by initialization, creates
and deletes alone (no updates). -/
inductive ReachCD : Store → Prop where
  | init : ReachCD (Client.startSKU { data := [], counter := .absent }).1
  | createStep {s : Store} (id : String) (item : Item) (h : ReachCD s) :
      ReachCD (Client.create s id item).store
  | deleteStep {s : Store} (id : String) (h : ReachCD s) :
      ReachCD (Client.DeleteItem s id).1

/-- Counterexample to C9: a store reached through this layer
(initialize, create, then update) holding a record whose sequence is 5,
below the seed 1000 — UpdateItem writes the caller-supplied sequence
verbatim, so an operation of the layer can write a smaller value. -/
theorem update_breaks_sku_floor :
    Reach (Store.mk [("a", .good (Item.mk "a" "n" 5))] (.intVal 1001)) ∧
    lookupDoc (Store.mk [("a", .good (Item.mk "a" "n" 5))] (.intVal 1001)).data "a" =
      some (.good (Item.mk "a" "n" 5)) ∧
    ¬ (1000 ≤ (Item.mk "a" "n" 5).sku) := by
  refine ⟨?_, by decide, by decide⟩
  have h0 : Reach (Store.mk [] (.intVal 1000)) := by
    have h := Reach.init
    rwa [show (Client.startSKU (Store.mk [] .absent)).1 = Store.mk [] (.intVal 1000) by decide]
      at h
  have h1 : Reach (Store.mk [("a", .good (Item.mk "a" "n" 1000))] (.intVal 1001)) := by
    have h := Reach.createStep "a" (Item.mk "a" "n" 0) h0
    rwa [show (Client.create (Store.mk [] (.intVal 1000)) "a" (Item.mk "a" "n" 0)).store =
        Store.mk [("a", .good (Item.mk "a" "n" 1000))] (.intVal 1001) by decide] at h
  have h2 := Reach.updateStep (Item.mk "a" "n" 5) h1
  rwa [show (Client.UpdateItem (Store.mk [("a", .good (Item.mk "a" "n" 1000))] (.intVal 1001))
      (Item.mk "a" "n" 5)).1 = Store.mk [("a", .good (Item.mk "a" "n" 5))] (.intVal 1001)
      by decide] at h2

/-- Invariant carried by initialization, creates and deletes: the
counter holds an integer at least 1000 and every stored document is a
decodable item whose sequence lies in [1000, counter). -/
theorem reachCD_invariant {s : Store} (h : ReachCD s) :
    ∃ c, s.counter = .intVal c ∧ 1000 ≤ c ∧
      ∀ id d, lookupDoc s.data id = some d →
        ∃ i, d = .good i ∧ 1000 ≤ i.sku ∧ i.sku < c := by
  induction h with
  | init =>
    refine ⟨1000, rfl, le_refl _, ?_⟩
    intro id d hd
    simp [Client.startSKU, lookupDoc] at hd
  | @createStep s1 id item h ih =>
    obtain ⟨c, hc, hge, hinv⟩ := ih
    by_cases hok : (Client.create s1 id item).err = none
    · obtain ⟨n, hcn, hl, he⟩ := create_ok_spec s1 id item hok
      rw [hc] at hcn
      injection hcn with hnc
      subst hnc
      refine ⟨c + 1, by rw [he], by omega, ?_⟩
      intro id2 d hd
      rw [he] at hd
      simp only [lookupDoc_append_singleton] at hd
      cases hld : lookupDoc s1.data id2 with
      | some d0 =>
        rw [hld] at hd
        simp only [] at hd
        obtain ⟨i, hi, hge2, hlt⟩ := hinv id2 d0 hld
        injection hd with hd
        subst hd
        exact ⟨i, hi, hge2, by omega⟩
      | none =>
        rw [hld] at hd
        simp only [] at hd
        by_cases hid : id = id2
        · rw [if_pos hid] at hd
          injection hd with hd
          subst hd
          refine ⟨_, rfl, ?_, ?_⟩
          · show 1000 ≤ c
            exact hge
          · show c < c + 1
            omega
        · rw [if_neg hid] at hd
          cases hd
    · have hsome : (Client.create s1 id item).err.isSome := by
        cases hcase : (Client.create s1 id item).err with
        | none => exact absurd hcase hok
        | some e => rfl
      rw [create_aborted_store s1 id item hsome]
      exact ⟨c, hc, hge, hinv⟩
  | @deleteStep s1 id h ih =>
    obtain ⟨c, hc, hge, hinv⟩ := ih
    refine ⟨c, hc, hge, ?_⟩
    intro id2 d hd
    simp only [Client.DeleteItem, lookupDoc_deleteDoc] at hd
    by_cases hid : id2 = id
    · rw [if_pos hid] at hd
      cases hd
    · rw [if_neg hid] at hd
      exact hinv id2 d hd

/-- C9 amended: the counter is seeded at 1000 and only advanced by +1
by committed creates, so in every store reached through initialization,
creates and deletes alone the counter is at least 1000 and every stored
record's sequence is at least 1000; UpdateItem, however, stores the
caller-supplied sequence verbatim and can write a value below 1000. -/
theorem skus_at_least_seed :
    ∀ s, ReachCD s → ∃ c, s.counter = .intVal c ∧ 1000 ≤ c ∧
      ∀ id i, lookupDoc s.data id = some (.good i) → 1000 ≤ i.sku := by
  intro s h
  obtain ⟨c, hc, hge, hinv⟩ := reachCD_invariant h
  refine ⟨c, hc, hge, ?_⟩
  intro id i hd
  obtain ⟨j, hj, hge2, _⟩ := hinv id _ hd
  injection hj with hj
  subst hj
  exact hge2

/-- Witness for the amended C9: the store reached by one committed
create after initialization. -/
theorem skus_at_least_seed_witness :
    ∃ c, (Client.create (Client.startSKU (Store.mk [] .absent)).1 "a"
        (Item.mk "a" "n" 0)).store.counter = .intVal c ∧ 1000 ≤ c ∧
      ∀ id i, lookupDoc (Client.create (Client.startSKU (Store.mk [] .absent)).1 "a"
        (Item.mk "a" "n" 0)).store.data id = some (.good i) → 1000 ≤ i.sku :=
  skus_at_least_seed _ (ReachCD.createStep "a" (Item.mk "a" "n" 0) ReachCD.init)

/-- C10: ListItems never fails the whole scan because a stored document
cannot be decoded: it always returns a nil error, and the returned list
holds exactly the items of the decodable documents, the undecodable
ones being skipped. -/
theorem listItems_skips_undecodable :
    ∀ s, ∃ l, Client.ListItems s = .ok l ∧
      ∀ i : Item, i ∈ l ↔ ∃ id, (id, StoredDoc.good i) ∈ s.data := by
  intro s
  refine ⟨_, rfl, ?_⟩
  intro i
  constructor
  · intro hi
    rw [List.mem_filterMap] at hi
    obtain ⟨p, hp, hpi⟩ := hi
    have hp2 : p ∈ s.data := (List.mergeSort_perm s.data _).mem_iff.mp hp
    obtain ⟨k, d⟩ := p
    cases d with
    | good j =>
      simp only [] at hpi
      injection hpi with hpi
      subst hpi
      exact ⟨k, hp2⟩
    | bad f => simp at hpi
  · intro ⟨id0, hmem⟩
    rw [List.mem_filterMap]
    refine ⟨(id0, .good i), ?_, rfl⟩
    exact (List.mergeSort_perm s.data _).mem_iff.mpr hmem

end WebTutorial
